import Mathlib

/-! wsocket: hub, session and manager

A shallow embedding of `hub.go`, `session.go`, `manager.go` and `config.go`.

Conventions of the embedding

* A `*Session` is a record carrying its address in the field `id`; two records
  denote the same Go object exactly when their `id`s agree.
* The user callbacks held by the manager (`errorHandler`, `messageSentHandler`,
  ...) are arbitrary user code; an invocation is recorded as a `Call` in a log
  returned next to the new state.
* Locks are omitted: every function below is one sequential execution of the
  corresponding Go function.
* `time.Time` and `time.Duration` are integers counting nanoseconds.
* The connection (`*websocket.Conn`) is external; the outcome of a write or of
  a read is supplied with the event that triggers it.
-/

namespace wsocket

/-! ## Shared types -/

/-- Payload of a frame, `[]byte`. -/
abbrev Bytes := List UInt8

/-- Frame kind `websocket.TextMessage`. -/
def TextMessage : Int := 1
/-- Frame kind `websocket.BinaryMessage`. -/
def BinaryMessage : Int := 2
/-- Frame kind `websocket.CloseMessage`. -/
def CloseMessage : Int := 8
/-- Frame kind `websocket.PingMessage`. -/
def PingMessage : Int := 9
/-- Frame kind `websocket.PongMessage`. -/
def PongMessage : Int := 10

/-- Modelled from the spec: the declaration of `envelope` is not among the
sources; its fields `t`, `msg` and `filter` are those used by `manager.go`
and `session.go` ("a frame kind plus payload bytes, optionally carrying a
predicate used for selective broadcast"). A `filterFunc` receives a
`*Session`; here it receives the address of the session. -/
structure envelope where
  t : Int
  msg : Bytes
  filter : Option (Nat → Bool) := none

/-- A value of type `interface{}`. -/
inductive iface where
  | nil
  | int (n : Int)
  | str (s : String)
  | bool (b : Bool)
  deriving DecidableEq, Repr

/-- One invocation of a callback of the manager, with the address of the
session it was invoked for. -/
inductive Call where
  | error (s : Nat) (err : String)
  | messageSent (s : Nat) (msg : Bytes)
  | message (s : Nat) (msg : Bytes)
  | pong (s : Nat)
  | connect (s : Nat)
  | disconnect (s : Nat)
  deriving DecidableEq, Repr

/-! ## config.go -/

/-- One second as a `time.Duration`. -/
def second : Int := 1000000000

structure Config where
  WriteWait : Int
  PongWait : Int
  PingPeriod : Int
  MaxMessageSize : Int
  MessageBufferSize : Nat
  deriving DecidableEq, Repr

def NewConfig : Config :=
  { WriteWait := second * 10
    PongWait := second * 60
    PingPeriod := second * 54
    MaxMessageSize := 512
    MessageBufferSize := 256 }

/-! ## session.go -/

/-- What a session reaches through its `manager` pointer: the configuration
and whether a close handler is set (`closeHandler != nil`). The hub of the
manager is passed separately to the functions that use it. -/
structure Manager where
  Config : Config
  closeHandler : Bool
  deriving DecidableEq, Repr

/-- The observable state of a `*websocket.Conn`. -/
structure Conn where
  closed : Bool := false
  written : List (Int × Bytes) := []
  writeDeadline : Option Int := none
  readDeadline : Option Int := none
  readLimit : Int := 0
  closeHandlerSet : Bool := false
  deriving DecidableEq, Repr

/-- The channel `output chan *envelope` of a session, as its senders and its
one receiver, `writePump`, see it. `buf` lists, oldest first, the envelopes
sent and not yet taken up by the loop of `writePump`; `cap` is the capacity
given to `make`.

`parked` holds when `writePump` has blocked on `<-s.output` and has not taken
up an envelope since. A send that finds the receiver blocked passes its value
to the receiver without using the buffer, so from the moment the receiver
blocks until it runs again the channel accepts `cap + 1` envelopes: the first
is the one handed to the receiver (the head of `buf`), the others fill the
buffer. With `parked` false, `buf` is the buffer of the channel.

The channel is closed by `close()` only, together with clearing `open`, so it
is closed exactly when the session is not open. -/
structure chan where
  buf : List envelope
  cap : Nat
  parked : Bool := false

/-- The Go map `map[string]interface{}`: one entry per key. -/
abbrev KeyMap := List (String × iface)

/-- The struct `Session`. `id` is the address of the session; the fields
`Request` and `rwmutex` play no part in the functions below. -/
structure Session where
  id : Nat
  Keys : Option KeyMap
  conn : Conn
  output : chan
  manager : Manager
  isOpen : Bool

/-- A session after a call, with the callbacks invoked during the call. -/
structure Effect where
  session : Session
  calls : List Call := []

/-- A session after a call that returns an `error` (`none` is `nil`). -/
structure ErrEffect where
  err : Option String
  session : Session
  calls : List Call := []

def errSessionAlreadyClosed : String := "session is already closed"

def Session.closed (s : Session) : Bool := !s.isOpen

/-- Non-blocking send `select { case ch <- message: default: }`; `none` is the
`default` branch. The send is taken when the buffer has room or when the
receiver is blocked on the channel and has been handed nothing yet; on a
channel of capacity 0 only the latter can happen. -/
def chan.trySend (c : chan) (message : envelope) : Option chan :=
  if c.buf.length < c.cap + (if c.parked then 1 else 0) then
    some { c with buf := c.buf ++ [message] }
  else none

def Session.writeMessage (s : Session) (message : envelope) : Effect :=
  if s.closed then
    { session := s, calls := [Call.error s.id "tried to write to a closed session"] }
  else
    match s.output.trySend message with
    | some c => { session := { s with output := c } }
    | none => { session := s, calls := [Call.error s.id "session message buffer is full"] }

/-- The body of `writeRaw`; `now` is `time.Now()` and `werr` the result of
`s.conn.WriteMessage` (`none` is `nil`). A successful write adds the frame to
`conn.written`. -/
def Session.writeRaw (s : Session) (message : envelope) (now : Int)
    (werr : Option String) : ErrEffect :=
  if s.closed then
    { err := some "tried to write to a closed session", session := s }
  else
    let c := { s.conn with writeDeadline := some (now + s.manager.Config.WriteWait) }
    match werr with
    | some e => { err := some ("write message err: " ++ e ++ "\n"), session := { s with conn := c } }
    | none =>
      { err := none
        session := { s with conn := { c with written := c.written ++ [(message.t, message.msg)] } } }

/-- The unexported `close`: clears `open`, closes the connection and closes
the output channel. -/
def Session.close (s : Session) : Session :=
  if !s.closed then
    { s with isOpen := false, conn := { s.conn with closed := true } }
  else s

def Session.ping (s : Session) (now : Int) (werr : Option String) : Session :=
  (s.writeRaw { t := PingMessage, msg := [] } now werr).session

def Session.Write (s : Session) (msg : Bytes) : ErrEffect :=
  if s.closed then
    { err := some "session is closed", session := s }
  else
    let r := s.writeMessage { t := TextMessage, msg := msg }
    { err := none, session := r.session, calls := r.calls }

def Session.Close (s : Session) : ErrEffect :=
  if s.closed then
    { err := some errSessionAlreadyClosed, session := s }
  else
    let r := s.writeMessage { t := CloseMessage, msg := [] }
    { err := none, session := r.session, calls := r.calls }

def Session.CloseWithMsg (s : Session) (msg : Bytes) : ErrEffect :=
  if s.closed then
    { err := some errSessionAlreadyClosed, session := s }
  else
    let r := s.writeMessage { t := CloseMessage, msg := msg }
    { err := none, session := r.session, calls := r.calls }

def Session.IsClosed (s : Session) : Bool := s.closed

/-- Assignment `m[key] = value` on a Go map. -/
def KeyMap.assign (m : KeyMap) (key : String) (value : iface) : KeyMap :=
  (key, value) :: m.filter (fun p => p.1 != key)

/-- Lookup `value, exists = m[key]` on a Go map; a nil map yields the zero
value and `false`. -/
def KeyMap.index (m : Option KeyMap) (key : String) : iface × Bool :=
  match m with
  | none => (iface.nil, false)
  | some l =>
    match l.lookup key with
    | some v => (v, true)
    | none => (iface.nil, false)

def Session.Set (s : Session) (key : String) (value : iface) : Session :=
  let keys := match s.Keys with
    | none => ([] : KeyMap)
    | some m => m
  { s with Keys := some (KeyMap.assign keys key value) }

def Session.Get (s : Session) (key : String) : iface × Bool :=
  if s.Keys.isSome then KeyMap.index s.Keys key else (iface.nil, false)

/-- The result is `Except.error` with the panic value when `MustGet` panics. -/
def Session.MustGet (s : Session) (key : String) : Except String iface :=
  match KeyMap.index s.Keys key with
  | (value, true) => Except.ok value
  | (_, false) => Except.error ("Key \"" ++ key ++ "\" does not exist")

/-- One iteration of the `select` of `writePump`: either the receive from
`s.output` is taken or the ticker fires. `now` is `time.Now()` inside
`writeRaw` and `werr` the result of `conn.WriteMessage` there. -/
inductive PumpEvent where
  | recv (now : Int) (werr : Option String)
  | tick (now : Int) (werr : Option String)

/-- The session once the receive `<-s.output` has taken the head of the queue,
leaving `q`: the pump is running, not blocked. -/
def Session.dequeued (s : Session) (q : List envelope) : Session :=
  { s with output := { s.output with buf := q, parked := false } }

/-- The session once `writePump` has blocked on `<-s.output`. -/
def Session.blocked (s : Session) : Session :=
  { s with output := { s.output with parked := true } }

/-- The session once `writePump` has left its `select` through the ticker. -/
def Session.ticked (s : Session) : Session :=
  { s with output := { s.output with parked := false } }

/-- The loop `for { select { ... } }` of `writePump` over the iterations of its
`select`. A receive on an empty channel ends the run: a closed channel gives
`!ok` and `break loop`, on an open one the pump blocks. -/
def Session.writePumpLoop : Session → List PumpEvent → Effect
  | s, [] => { session := s }
  | s, PumpEvent.recv now werr :: rest =>
    match s.output.buf with
    | [] => { session := if s.closed then s else s.blocked }
    | msg :: q =>
      let r := (s.dequeued q).writeRaw msg now werr
      match r.err with
      | some e => { session := r.session, calls := [Call.error s.id e] }
      | none =>
        if msg.t = CloseMessage then { session := r.session }
        else if msg.t = TextMessage then
          let k := Session.writePumpLoop r.session rest
          { session := k.session, calls := Call.messageSent s.id msg.msg :: k.calls }
        else Session.writePumpLoop r.session rest
  | s, PumpEvent.tick now werr :: rest =>
    Session.writePumpLoop (s.ticked.ping now werr) rest

/-- The function `writePump`. Its first statement,
`time.NewTicker(s.manager.Config.PingPeriod)`, panics when the period is not
positive; `Except.error` carries the panic value. -/
def Session.writePump (s : Session) (events : List PumpEvent) : Except String Effect :=
  if s.manager.Config.PingPeriod ≤ 0 then
    Except.error "non-positive interval for NewTicker"
  else
    Except.ok (s.writePumpLoop events)

/-- What the connection delivers to `readPump`: a pong frame received at time
`now` (the connection runs the pong handler), a data frame returned by
`ReadMessage`, or an error returned by `ReadMessage`. -/
inductive Inbound where
  | pong (now : Int)
  | frame (t : Int) (message : Bytes)
  | err (e : String)

/-- The closure given to `SetPongHandler`; `readDeadLine` is the variable of
`readPump` it captures, `now` the time at which it runs. -/
def Session.pongHandler (s : Session) (readDeadLine : Int) (_now : Int) : Effect :=
  { session := { s with conn := { s.conn with readDeadline := some readDeadLine } }
    calls := [Call.pong s.id] }

/-- The `for` loop of `readPump`. -/
def Session.readLoop (readDeadLine : Int) : Session → List Inbound → Effect
  | s, [] => { session := s }
  | s, Inbound.pong now :: rest =>
    let r := s.pongHandler readDeadLine now
    let k := Session.readLoop readDeadLine r.session rest
    { session := k.session, calls := r.calls ++ k.calls }
  | s, Inbound.frame t message :: rest =>
    if t = TextMessage then
      let k := Session.readLoop readDeadLine s rest
      { session := k.session, calls := Call.message s.id message :: k.calls }
    else Session.readLoop readDeadLine s rest
  | s, Inbound.err e :: _ => { session := s, calls := [Call.error s.id e] }

/-- The function `readPump` started at time `now`. -/
def Session.readPump (s : Session) (now : Int) (inbound : List Inbound) : Effect :=
  let readDeadLine := now + s.manager.Config.PongWait
  let c := { s.conn with
    readLimit := s.manager.Config.MaxMessageSize
    readDeadline := some readDeadLine
    closeHandlerSet := s.manager.closeHandler || s.conn.closeHandlerSet }
  Session.readLoop readDeadLine { s with conn := c } inbound

/-! ## hub.go -/

/-- The map `sessions` is the list of its keys, each `*Session` with the
state of the session it points to; `open` is `isOpen`. -/
structure hub where
  sessions : List Session
  isOpen : Bool

def newHub : hub := { sessions := [], isOpen := true }

/-- A value received by the `select` of `hub.run` from `register`,
`unregister`, `broadcast` or `exit`. -/
inductive Event where
  | register (s : Session)
  | unregister (s : Nat)
  | broadcast (msg : envelope)
  | exit (msg : envelope)

/-- Membership test `_, ok := h.sessions[s]`. -/
def hub.has (h : hub) (s : Nat) : Bool := h.sessions.any (fun q => q.id == s)

def hub.closed (h : hub) : Bool := !h.isOpen

def hub.len (h : hub) : Nat := h.sessions.length

/-- The state of the control loop: the hub, the sessions the `exit` case has
deleted from the map (in the state it left them in), the callbacks invoked so
far, and whether the loop is still running (`break loop` not reached). -/
structure LoopState where
  h : hub
  released : List Session := []
  calls : List Call := []
  running : Bool := true

/-- The body of the `exit` case for one session: `s.writeMessage(msg)`,
`delete(h.sessions, s)`, `s.Close()`. -/
def hub.exitOne (s : Session) (msg : envelope) : Effect :=
  let r := s.writeMessage msg
  let c := r.session.Close
  { session := c.session, calls := r.calls ++ c.calls }

/-- One iteration of the `select` of `hub.run`. -/
def LoopState.step (st : LoopState) : Event → LoopState
  | Event.register s =>
    if st.h.has s.id then st
    else { st with h := { st.h with sessions := st.h.sessions ++ [s] } }
  | Event.unregister s =>
    if st.h.has s then
      { st with h := { st.h with sessions := st.h.sessions.filter (fun q => q.id != s) } }
    else st
  | Event.broadcast msg =>
    let rs := st.h.sessions.map (fun s => s.writeMessage msg)
    { st with
      h := { st.h with sessions := rs.map (fun r => r.session) }
      calls := st.calls ++ (rs.map (fun r => r.calls)).flatten }
  | Event.exit msg =>
    let rs := st.h.sessions.map (fun s => hub.exitOne s msg)
    { h := { sessions := [], isOpen := false }
      released := st.released ++ rs.map (fun r => r.session)
      calls := st.calls ++ (rs.map (fun r => r.calls)).flatten
      running := false }

/-- The loop of `hub.run` from state `st`; it stops at `break loop`. -/
def LoopState.run : LoopState → List Event → LoopState
  | st, [] => st
  | st, ev :: rest =>
    let st1 := st.step ev
    if st1.running then LoopState.run st1 rest else st1

/-- The function `hub.run` on the hub `h`, fed the events `evs`. -/
def hub.run (h : hub) (evs : List Event) : LoopState :=
  LoopState.run { h := h } evs

/-! ## manager.go -/

/-- The manager built by `New`: default configuration, no close handler; its
hub is `newHub`. -/
def New : Manager := { Config := NewConfig, closeHandler := false }

/-- A value sent by a manager function on a channel of the hub. -/
inductive Submit where
  | broadcast (e : envelope)
  | exit (e : envelope)
  | register (s : Session)

/-- Result of a manager function: the returned `error` (`none` is `nil`) and
the values it sent to the hub, in order. -/
structure Ret where
  err : Option String
  sent : List Submit := []

/-- The session literal built by `HandleRequestWithKeys`, allocated at
address `addr`. -/
def Session.new (m : Manager) (addr : Nat) (keys : Option KeyMap) (conn : Conn) : Session :=
  { id := addr
    Keys := keys
    conn := conn
    output := { buf := [], cap := m.Config.MessageBufferSize }
    manager := m
    isOpen := true }

/-- Result of `HandleRequestWithKeys`: the returned error, the values sent to
the hub, the callbacks invoked on the calling goroutine. -/
structure HandleRet where
  err : Option String
  sent : List Submit := []
  calls : List Call := []

/-- The function `HandleRequestWithKeys` on a manager whose hub is `h`.
`upgrade` is the result of `m.Upgrader.Upgrade`, `addr` the address of the
new session, `now` the time at which `readPump` starts and `inbound` what the
connection delivers to it. The goroutine `writePump` runs beside this call. -/
def Manager.HandleRequestWithKeys (m : Manager) (h : hub) (upgrade : Except String Conn)
    (keys : Option KeyMap) (addr : Nat) (now : Int) (inbound : List Inbound) : HandleRet :=
  if h.closed then
    { err := some "manager instance is closed" }
  else
    match upgrade with
    | Except.error e => { err := some e }
    | Except.ok conn =>
      let session := Session.new m addr keys conn
      let r := session.readPump now inbound
      { err := none
        sent := [Submit.register session]
        calls := [Call.connect addr] ++ r.calls ++ [Call.disconnect addr] }

def Manager.HandleRequest (m : Manager) (h : hub) (upgrade : Except String Conn)
    (addr : Nat) (now : Int) (inbound : List Inbound) : HandleRet :=
  m.HandleRequestWithKeys h upgrade none addr now inbound

def Manager.Broadcast (h : hub) (msg : Bytes) : Ret :=
  if h.closed then
    { err := some "manager instance is closed" }
  else
    { err := none, sent := [Submit.broadcast { t := TextMessage, msg := msg }] }

def Manager.BroadcastFilter (h : hub) (msg : Bytes) (fn : Nat → Bool) : Ret :=
  if h.closed then
    { err := some "manager instance is closed" }
  else
    { err := none, sent := [Submit.broadcast { t := TextMessage, msg := msg, filter := some fn }] }

def Manager.BroadcastOthers (h : hub) (msg : Bytes) (s : Session) : Ret :=
  Manager.BroadcastFilter h msg (fun q => s.id != q)

def Manager.Close (h : hub) : Ret :=
  if h.closed then
    { err := some "manager instance is already closed" }
  else
    { err := none, sent := [Submit.exit { t := CloseMessage, msg := [] }] }

def Manager.IsClosed (h : hub) : Bool := h.closed

def Manager.Len (h : hub) : Nat := h.len

/-! ## Vocabulary of the properties -/

/-- Key `k` is present in `s.Keys` (a nil map has no key). -/
def Session.hasKey (s : Session) (k : String) : Bool :=
  match s.Keys with
  | none => false
  | some m => m.any (fun p => p.1 == k)

/-- The frames of a list of envelopes, as the connection sees them. -/
def frames (l : List envelope) : List (Int × Bytes) := l.map (fun m => (m.t, m.msg))

/-- The envelopes up to and including the first one of kind Close, or the
whole list when there is none. -/
def uptoFirstClose : List envelope → List envelope
  | [] => []
  | m :: rest => if m.t = CloseMessage then [m] else m :: uptoFirstClose rest

/-- The message-sent callbacks owed to a list of written envelopes: one per
Text envelope, in order. -/
def sentCalls (s : Nat) (l : List envelope) : List Call :=
  (l.filter (fun m => m.t == TextMessage)).map (fun m => Call.messageSent s m.msg)

/-- Number of register events in a sequence. -/
def registers : List Event → Nat
  | [] => 0
  | Event.register _ :: rest => registers rest + 1
  | _ :: rest => registers rest

def Event.isExit : Event → Bool
  | Event.exit _ => true
  | _ => false

/-- The sequence holds no shutdown event. -/
def noExit (evs : List Event) : Bool := evs.all (fun ev => !ev.isExit)

/-- The sequence holds a shutdown event. -/
def hasExit (evs : List Event) : Bool := evs.any (fun ev => ev.isExit)

/-- Whether an event is an unregister that finds its session a member. -/
def LoopState.finds (st : LoopState) : Event → Bool
  | Event.unregister s => st.h.has s
  | _ => false

/-- Whether an event is a register of a session that is a member already. -/
def LoopState.reregisters (st : LoopState) : Event → Bool
  | Event.register s => st.h.has s.id
  | _ => false

/-- Number of unregister events, among those the loop processes, that find
their session a member. -/
def LoopState.foundUnregisters : LoopState → List Event → Nat
  | _, [] => 0
  | st, ev :: rest =>
    (if st.finds ev then 1 else 0) +
      (if (st.step ev).running then LoopState.foundUnregisters (st.step ev) rest else 0)

/-- No register event processed by the loop names a session that is a member
at that moment. -/
def LoopState.freshRegisters : LoopState → List Event → Bool
  | _, [] => true
  | st, ev :: rest =>
    !st.reregisters ev &&
      (if (st.step ev).running then LoopState.freshRegisters (st.step ev) rest else true)

/-- The addresses of the members of a hub. -/
def hub.ids (h : hub) : List Nat := h.sessions.map (fun s => s.id)

/-- A manager whose sessions have room for two envelopes. -/
def smallManager : Manager :=
  { Config := { NewConfig with MessageBufferSize := 2 }, closeHandler := false }

/-- An open session at address 1 with an empty queue of capacity 2. -/
def sessA : Session := Session.new smallManager 1 none {}

/-- An open session at address 2 with an empty queue of capacity 2. -/
def sessB : Session := Session.new smallManager 2 none {}

/-- The payload "hi". -/
def hi : Bytes := [104, 105]

/-- A Text envelope with payload "hi". -/
def textHi : envelope := { t := TextMessage, msg := hi }

/-- The envelope sent by `Manager.Close`. -/
def closeEnv : envelope := { t := CloseMessage, msg := [] }

/-- The session `sessA` with the queue Text "hi", Close, Text "hi" (capacity 4). -/
def sessQ : Session :=
  { sessA with output := { buf := [textHi, closeEnv, textHi], cap := 4 } }

/-- The envelope built by `BroadcastOthers(hi, sessA)`. -/
def othersEnv : envelope :=
  { t := TextMessage, msg := hi, filter := some (fun q => sessA.id != q) }

/-- A hub whose members are `sessA` and `sessB`. -/
def hubAB : hub := { sessions := [sessA, sessB], isOpen := true }

/-- A hub after shutdown. -/
def hubClosed : hub := (hubAB.run [Event.exit closeEnv]).h

/-- One registration followed by a shutdown. -/
def registerThenExit : List Event := [Event.register sessA, Event.exit closeEnv]

/-- Two registrations, an unregister that finds its session, one that does
not, and a broadcast. -/
def membershipEvents : List Event :=
  [Event.register sessA, Event.register sessB, Event.unregister 1, Event.unregister 7,
   Event.broadcast textHi]

/-- The session `sessQ` under a configuration whose `PingPeriod` is 0. -/
def sessNoTicker : Session :=
  { sessQ with manager := { sessQ.manager with
      Config := { sessQ.manager.Config with PingPeriod := 0 } } }

/-- The session `sessA` after the unexported `close`. -/
def sessClosed : Session := sessA.close

end wsocket

namespace wsocket

/-! ## Session: enqueueing, Write and Close -/

theorem Session.writeMessage_id (s : Session) (message : envelope) :
    (s.writeMessage message).session.id = s.id := by
  unfold Session.writeMessage
  split
  · rfl
  · split <;> rfl

theorem Session.writeMessage_isOpen (s : Session) (message : envelope) :
    (s.writeMessage message).session.isOpen = s.isOpen := by
  unfold Session.writeMessage
  split
  · rfl
  · split <;> rfl

theorem Session.writeMessage_conn (s : Session) (message : envelope) :
    (s.writeMessage message).session.conn = s.conn := by
  unfold Session.writeMessage
  split
  · rfl
  · split <;> rfl

theorem chan.trySend_room (c : chan) (message : envelope) (h : c.buf.length < c.cap) :
    c.trySend message = some { c with buf := c.buf ++ [message] } := by
  have h2 : c.buf.length < c.cap + (if c.parked then 1 else 0) := by omega
  simp [chan.trySend, h2]

/-- C7: `Write` returns an error exactly when the session is closed; on a
closed session nothing is enqueued and no callback runs; on an open session
with room in the queue exactly one Text envelope with payload `msg` is
appended at the tail. -/
theorem Write_error_iff_closed (s : Session) (msg : Bytes) :
    ((s.Write msg).err ≠ none ↔ s.IsClosed = true) ∧
    (s.IsClosed = true → (s.Write msg).session = s ∧ (s.Write msg).calls = []) ∧
    (s.IsClosed = false → s.output.buf.length < s.output.cap →
      (s.Write msg).session =
        { s with output :=
            { s.output with buf := s.output.buf ++ [{ t := TextMessage, msg := msg }] } } ∧
      (s.Write msg).calls = []) := by
  cases hopen : s.isOpen
  · simp [Session.Write, Session.IsClosed, Session.closed, hopen]
  · refine ⟨by simp [Session.Write, Session.IsClosed, Session.closed, hopen],
      by simp [Session.IsClosed, Session.closed, hopen], ?_⟩
    intro _ hroom
    simp [Session.Write, Session.writeMessage, Session.closed, hopen,
      chan.trySend_room _ _ hroom]

theorem Write_error_iff_closed_witness :
    (sessClosed.IsClosed = true ∧ (sessClosed.Write hi).err ≠ none ∧
      (sessClosed.Write hi).session.output.buf.length = 0) ∧
    (sessA.IsClosed = false ∧ sessA.output.buf.length < sessA.output.cap ∧
      (sessA.Write hi).err = none ∧
      (sessA.Write hi).session.output.buf.map (fun m => (m.t, m.msg)) = [(1, hi)]) :=
  ⟨⟨rfl, (Write_error_iff_closed sessClosed hi).1.2 rfl,
      by rw [((Write_error_iff_closed sessClosed hi).2.1 rfl).1]; rfl⟩,
   ⟨rfl, by decide,
      by
        have h := (Write_error_iff_closed sessA hi).1
        cases he : (sessA.Write hi).err with
        | none => rfl
        | some e => exact absurd (h.1 (by simp [he])) (by decide),
      by rw [((Write_error_iff_closed sessA hi).2.2 rfl (by decide)).1]; rfl⟩⟩

theorem Session.Close_keeps (s : Session) :
    (s.Close).session.isOpen = s.isOpen ∧ (s.Close).session.conn = s.conn := by
  unfold Session.Close
  split
  · exact ⟨rfl, rfl⟩
  · exact ⟨Session.writeMessage_isOpen _ _, Session.writeMessage_conn _ _⟩

/-- C2: `Session.Close` never changes the open flag of the session, so a
second `Close` on an open session finds it open again: both calls return nil
and the queue then holds two Close envelopes. -/
theorem Close_twice_enqueues_twice :
    (∀ s : Session, (s.Close).session.isOpen = s.isOpen ∧
      (s.Close).session.conn.closed = s.conn.closed) ∧
    sessA.isOpen = true ∧
    (sessA.Close).err = none ∧
    (sessA.Close).session.output.buf.map (fun m => m.t) = [CloseMessage] ∧
    (sessA.Close).session.IsClosed = false ∧
    ((sessA.Close).session.Close).err = none ∧
    ((sessA.Close).session.Close).session.output.buf.map (fun m => m.t) =
      [CloseMessage, CloseMessage] := by
  refine ⟨?_, rfl, rfl, rfl, rfl, rfl, rfl⟩
  intro s
  exact ⟨(Session.Close_keeps s).1, by rw [(Session.Close_keeps s).2]⟩

/-! ## Session: the key table -/

theorem KeyMap.lookup_filter_ne (m : KeyMap) (k k' : String) (h : k' ≠ k) :
    (m.filter (fun p => p.1 != k)).lookup k' = m.lookup k' := by
  induction m with
  | nil => rfl
  | cons p m ih =>
    obtain ⟨a, b⟩ := p
    by_cases hak : a = k
    · subst hak
      have hne : (k' == a) = false := by simpa using h
      simp [List.filter, List.lookup, hne, ih]
    · have hk : (a != k) = true := by simpa using hak
      simp only [List.filter, hk, List.lookup]
      rw [ih]

theorem KeyMap.lookup_eq_none_iff (m : KeyMap) (k : String) :
    m.lookup k = none ↔ m.any (fun p => p.1 == k) = false := by
  induction m with
  | nil => simp
  | cons p m ih =>
    obtain ⟨a, b⟩ := p
    by_cases hak : k = a
    · subst hak
      simp [List.lookup]
    · have h1 : (k == a) = false := by simpa using hak
      have h2 : (a == k) = false := by simpa using fun h : a = k => hak h.symm
      simp [List.lookup, h1, h2, ih]

/-- C8: after `Set(k, v)`, `Get(k)` is `(v, true)` and `MustGet(k)` returns
`v`, whatever `Keys` was before (nil included); `Set(k, v)` leaves `Get` of
every other key unchanged; `Get(k)` is `(nil, false)` when `Keys` is nil or
lacks `k`; `MustGet(k)` panics exactly when `k` is absent from `Keys`. -/
theorem Keys_set_get (s : Session) (k : String) (v : iface) :
    (s.Set k v).Get k = (v, true) ∧
    (s.Set k v).MustGet k = Except.ok v ∧
    (∀ k' : String, k' ≠ k → (s.Set k v).Get k' = s.Get k') ∧
    (s.hasKey k = false → s.Get k = (iface.nil, false)) ∧
    ((∃ p, s.MustGet k = Except.error p) ↔ s.hasKey k = false) := by
  refine ⟨?_, ?_, ?_, ?_, ?_⟩
  · simp [Session.Set, Session.Get, KeyMap.index, KeyMap.assign, List.lookup]
  · simp [Session.Set, Session.MustGet, KeyMap.index, KeyMap.assign, List.lookup]
  · intro k' hk
    have hne : (k' == k) = false := by simpa using hk
    cases hK : s.Keys with
    | none =>
      simp [Session.Set, Session.Get, KeyMap.index, KeyMap.assign, List.lookup, hK, hne]
    | some m =>
      simp [Session.Set, Session.Get, KeyMap.index, KeyMap.assign, List.lookup, hK, hne,
        KeyMap.lookup_filter_ne m k k' hk]
  · intro habs
    cases hK : s.Keys with
    | none => simp [Session.Get, hK]
    | some m =>
      have hl : m.lookup k = none := by
        rw [KeyMap.lookup_eq_none_iff]
        simpa [Session.hasKey, hK] using habs
      simp [Session.Get, KeyMap.index, hK, hl]
  · cases hK : s.Keys with
    | none => simp [Session.MustGet, Session.hasKey, KeyMap.index, hK]
    | some m =>
      cases hl : m.lookup k with
      | none =>
        have ha := (KeyMap.lookup_eq_none_iff m k).1 hl
        simp [Session.MustGet, Session.hasKey, KeyMap.index, hK, hl, ha]
      | some w =>
        have ha : m.any (fun p => p.1 == k) ≠ false := by
          intro hc
          rw [← KeyMap.lookup_eq_none_iff, hl] at hc
          exact Option.noConfusion hc
        simp [Session.MustGet, Session.hasKey, KeyMap.index, hK, hl]
        simpa using ha

theorem Keys_set_get_witness :
    (sessA.Set "user" (iface.int 7)).Get "user" = (iface.int 7, true) ∧
    ("room" ≠ "user" ∧
      (sessA.Set "user" (iface.int 7)).Get "room" = sessA.Get "room") ∧
    (sessA.hasKey "user" = false ∧ sessA.Get "user" = (iface.nil, false)) ∧
    (sessA.hasKey "user" = false ∧ ∃ p, sessA.MustGet "user" = Except.error p) :=
  ⟨(Keys_set_get sessA "user" (iface.int 7)).1,
   ⟨by decide, (Keys_set_get sessA "user" (iface.int 7)).2.2.1 "room" (by decide)⟩,
   ⟨rfl, (Keys_set_get sessA "user" (iface.int 7)).2.2.2.1 rfl⟩,
   ⟨rfl, (Keys_set_get sessA "user" (iface.int 7)).2.2.2.2.2 rfl⟩⟩

/-! ## Session: the outbound pump -/

theorem Session.writePumpLoop_recv (s : Session) (now : Int) (werr : Option String)
    (rest : List PumpEvent) (msg : envelope) (q : List envelope)
    (hb : s.output.buf = msg :: q) :
    s.writePumpLoop (PumpEvent.recv now werr :: rest) =
      match ((s.dequeued q).writeRaw msg now werr).err with
      | some e =>
        { session := ((s.dequeued q).writeRaw msg now werr).session
          calls := [Call.error s.id e] }
      | none =>
        if msg.t = CloseMessage then
          { session := ((s.dequeued q).writeRaw msg now werr).session }
        else if msg.t = TextMessage then
          { session :=
              (Session.writePumpLoop ((s.dequeued q).writeRaw msg now werr).session rest).session
            calls := Call.messageSent s.id msg.msg ::
              (Session.writePumpLoop ((s.dequeued q).writeRaw msg now werr).session rest).calls }
        else
          Session.writePumpLoop ((s.dequeued q).writeRaw msg now werr).session rest := by
  rw [Session.writePumpLoop]
  simp only [hb]

theorem Session.writeRaw_ok (s : Session) (message : envelope) (now : Int)
    (hopen : s.isOpen = true) :
    s.writeRaw message now none =
      { err := none
        session := { s with conn := { s.conn with
          writeDeadline := some (now + s.manager.Config.WriteWait)
          written := s.conn.written ++ [(message.t, message.msg)] } } } := by
  simp [Session.writeRaw, Session.closed, hopen]

theorem Session.writeRaw_fail (s : Session) (message : envelope) (now : Int) (e : String)
    (hopen : s.isOpen = true) :
    s.writeRaw message now (some e) =
      { err := some ("write message err: " ++ e ++ "\n")
        session := { s with conn := { s.conn with
          writeDeadline := some (now + s.manager.Config.WriteWait) } } } := by
  simp [Session.writeRaw, Session.closed, hopen]

theorem Session.writeRaw_ok_spec (s : Session) (q : List envelope) (message : envelope)
    (now : Int) (hopen : s.isOpen = true) :
    ∃ s2 : Session,
      (s.dequeued q).writeRaw message now none = { err := none, session := s2 } ∧
      s2.isOpen = true ∧ s2.output.buf = q ∧ s2.id = s.id ∧
      s2.conn.written = s.conn.written ++ [(message.t, message.msg)] :=
  ⟨_, Session.writeRaw_ok (s.dequeued q) message now hopen, hopen, rfl, rfl, rfl⟩

theorem uptoFirstClose_close (m : envelope) (rest : List envelope) (h : m.t = CloseMessage) :
    uptoFirstClose (m :: rest) = [m] := by
  simp [uptoFirstClose, h]

theorem uptoFirstClose_other (m : envelope) (rest : List envelope) (h : m.t ≠ CloseMessage) :
    uptoFirstClose (m :: rest) = m :: uptoFirstClose rest := by
  simp [uptoFirstClose, h]

theorem sentCalls_text (s : Nat) (m : envelope) (l : List envelope) (h : m.t = TextMessage) :
    sentCalls s (m :: l) = Call.messageSent s m.msg :: sentCalls s l := by
  simp [sentCalls, List.filter_cons, h]

theorem sentCalls_other (s : Nat) (m : envelope) (l : List envelope) (h : m.t ≠ TextMessage) :
    sentCalls s (m :: l) = sentCalls s l := by
  simp [sentCalls, List.filter_cons, h]

theorem frames_cons (m : envelope) (l : List envelope) :
    frames (m :: l) = (m.t, m.msg) :: frames l := rfl

theorem close_ne_text : CloseMessage ≠ TextMessage := by decide

theorem Session.writePumpLoop_all_ok (times : List Int) :
    ∀ s : Session, s.isOpen = true → s.output.buf.length ≤ times.length →
      (s.writePumpLoop (times.map (fun t => PumpEvent.recv t none))).session.conn.written =
        s.conn.written ++ frames (uptoFirstClose s.output.buf) ∧
      (s.writePumpLoop (times.map (fun t => PumpEvent.recv t none))).calls =
        sentCalls s.id (uptoFirstClose s.output.buf) := by
  induction times with
  | nil =>
    intro s hopen hlen
    have hb : s.output.buf = [] := List.length_eq_zero.mp (Nat.le_zero.mp hlen)
    simp [Session.writePumpLoop, hb, uptoFirstClose, frames, sentCalls, Session.closed, Session.blocked, hopen]
  | cons t ts ih =>
    intro s hopen hlen
    cases hb : s.output.buf with
    | nil => simp [Session.writePumpLoop, hb, uptoFirstClose, frames, sentCalls, Session.closed, Session.blocked, hopen]
    | cons msg q =>
      have hq : q.length ≤ ts.length := by
        rw [hb] at hlen
        simpa using hlen
      obtain ⟨s2, hw, ho2, hb2, hid2, hwr2⟩ := Session.writeRaw_ok_spec s q msg t hopen
      rw [List.map_cons, Session.writePumpLoop_recv s t none _ msg q hb, hw]
      have hrec := ih s2 ho2 (by rw [hb2]; exact hq)
      rw [hb2, hwr2, hid2] at hrec
      by_cases hc : msg.t = CloseMessage
      · have hnt : msg.t ≠ TextMessage := by rw [hc]; exact close_ne_text
        simp only [hc, if_true]
        rw [uptoFirstClose_close msg q hc, sentCalls_other _ _ _ hnt, hwr2, frames_cons, hc]
        exact ⟨rfl, rfl⟩
      · rw [uptoFirstClose_other msg q hc, frames_cons]
        by_cases ht : msg.t = TextMessage
        · simp only [if_neg hc, if_pos ht]
          rw [sentCalls_text _ _ _ ht, hrec.1, hrec.2]
          exact ⟨by simp, rfl⟩
        · simp only [if_neg hc, if_neg ht]
          rw [sentCalls_other _ _ _ ht, hrec.1, hrec.2]
          exact ⟨by simp, rfl⟩

theorem Session.writeRaw_fail_spec (s : Session) (q : List envelope) (message : envelope)
    (now : Int) (e : String) (hopen : s.isOpen = true) :
    ∃ s2 : Session,
      (s.dequeued q).writeRaw message now (some e) =
        { err := some ("write message err: " ++ e ++ "\n"), session := s2 } ∧
      s2.output.buf = q ∧ s2.conn.written = s.conn.written :=
  ⟨_, Session.writeRaw_fail (s.dequeued q) message now e hopen, rfl, rfl⟩

theorem Session.writePumpLoop_fail (times : List Int) :
    ∀ s : Session, s.isOpen = true → times.length < s.output.buf.length →
      (∀ m ∈ s.output.buf.take times.length, m.t ≠ CloseMessage) →
      ∀ (t : Int) (e : String) (rest : List PumpEvent),
        (s.writePumpLoop (times.map (fun t => PumpEvent.recv t none) ++
            PumpEvent.recv t (some e) :: rest)).session.conn.written =
          s.conn.written ++ frames (s.output.buf.take times.length) ∧
        (s.writePumpLoop (times.map (fun t => PumpEvent.recv t none) ++
            PumpEvent.recv t (some e) :: rest)).session.output.buf =
          s.output.buf.drop (times.length + 1) ∧
        (s.writePumpLoop (times.map (fun t => PumpEvent.recv t none) ++
            PumpEvent.recv t (some e) :: rest)).calls =
          sentCalls s.id (s.output.buf.take times.length) ++
            [Call.error s.id ("write message err: " ++ e ++ "\n")] := by
  induction times with
  | nil =>
    intro s hopen hlen _ t e rest
    cases hb : s.output.buf with
    | nil => rw [hb] at hlen; exact absurd hlen (by simp)
    | cons msg q =>
      obtain ⟨s2, hw, hb2, hwr2⟩ := Session.writeRaw_fail_spec s q msg t e hopen
      rw [List.map_nil, List.nil_append, Session.writePumpLoop_recv s t (some e) rest msg q hb, hw]
      simp [hb2, hwr2, frames, sentCalls]
  | cons t0 ts ih =>
    intro s hopen hlen hnc t e rest
    cases hb : s.output.buf with
    | nil => rw [hb] at hlen; exact absurd hlen (by simp)
    | cons msg q =>
      rw [hb] at hlen hnc
      have hq : ts.length < q.length := by simpa using hlen
      have hc : msg.t ≠ CloseMessage := hnc msg (by simp)
      have hncq : ∀ m ∈ q.take ts.length, m.t ≠ CloseMessage := by
        intro m hm
        exact hnc m (by simp [hm])
      obtain ⟨s2, hw, ho2, hb2, hid2, hwr2⟩ := Session.writeRaw_ok_spec s q msg t0 hopen
      rw [List.map_cons, List.cons_append, Session.writePumpLoop_recv s t0 none _ msg q hb, hw]
      have hrec := ih s2 ho2 (by rw [hb2]; exact hq) (by rw [hb2]; exact hncq) t e rest
      rw [hb2, hwr2, hid2] at hrec
      rw [List.length_cons, List.take_succ_cons, List.drop_succ_cons, frames_cons]
      by_cases ht : msg.t = TextMessage
      · simp only [if_neg hc, if_pos ht]
        rw [sentCalls_text _ _ _ ht, hrec.1, hrec.2.1, hrec.2.2]
        exact ⟨by simp, rfl, rfl⟩
      · simp only [if_neg hc, if_neg ht]
        rw [sentCalls_other _ _ _ ht, hrec.1, hrec.2.1, hrec.2.2]
        exact ⟨by simp, rfl, rfl⟩

/-- C9, as the code has it: for an open session under a configuration with a
positive `PingPeriod` whose queue holds `q`, a run of `writePump` in which
every write succeeds and the ticker never fires does not panic and writes to
the connection, in queue order, exactly the envelopes of `q` up to and
including the first Close (all of `q` if there is none), and invokes the
message-sent callback once, in order, for each written Text envelope and for
no other. When a write fails after a run of successful writes, the frames
written are exactly the envelopes before the failing one, the rest of the
queue stays unwritten, and the error callback is invoked once, last. -/
theorem writePump_fifo (s : Session) (hopen : s.isOpen = true)
    (hperiod : 0 < s.manager.Config.PingPeriod) :
    (∀ times : List Int, s.output.buf.length ≤ times.length →
      ∃ r : Effect,
        s.writePump (times.map (fun t => PumpEvent.recv t none)) = Except.ok r ∧
        r.session.conn.written = s.conn.written ++ frames (uptoFirstClose s.output.buf) ∧
        r.calls = sentCalls s.id (uptoFirstClose s.output.buf)) ∧
    (∀ (times : List Int) (t : Int) (e : String) (rest : List PumpEvent),
      times.length < s.output.buf.length →
      (∀ m ∈ s.output.buf.take times.length, m.t ≠ CloseMessage) →
      ∃ r : Effect,
        s.writePump (times.map (fun t => PumpEvent.recv t none) ++
          PumpEvent.recv t (some e) :: rest) = Except.ok r ∧
        r.session.conn.written = s.conn.written ++ frames (s.output.buf.take times.length) ∧
        r.session.output.buf = s.output.buf.drop (times.length + 1) ∧
        r.calls = sentCalls s.id (s.output.buf.take times.length) ++
          [Call.error s.id ("write message err: " ++ e ++ "\n")]) := by
  have hrun : ∀ events, s.writePump events = Except.ok (s.writePumpLoop events) := by
    intro events
    simp [Session.writePump, hperiod]
  constructor
  · intro times hlen
    exact ⟨_, hrun _, Session.writePumpLoop_all_ok times s hopen hlen⟩
  · intro times t e rest hlen hnc
    exact ⟨_, hrun _, Session.writePumpLoop_fail times s hopen hlen hnc t e rest⟩

theorem writePump_fifo_witness :
    (sessQ.isOpen = true ∧ 0 < sessQ.manager.Config.PingPeriod ∧
      sessQ.output.buf.length ≤ [10, 20, 30].length ∧
      ∃ r : Effect,
        sessQ.writePump ([10, 20, 30].map (fun t => PumpEvent.recv t none)) = Except.ok r ∧
        r.session.conn.written = [(TextMessage, hi), (CloseMessage, [])] ∧
        r.calls = [Call.messageSent 1 hi]) ∧
    ([10].length < sessQ.output.buf.length ∧
      (∀ m ∈ sessQ.output.buf.take [10].length, m.t ≠ CloseMessage) ∧
      ∃ r : Effect,
        sessQ.writePump ([10].map (fun t => PumpEvent.recv t none) ++
          PumpEvent.recv 20 (some "broken pipe") :: [PumpEvent.recv 30 none]) = Except.ok r ∧
        r.session.conn.written = [(TextMessage, hi)] ∧
        r.session.output.buf.map (fun m => m.t) = [TextMessage] ∧
        r.calls = [Call.messageSent 1 hi, Call.error 1 "write message err: broken pipe\n"]) :=
  have hnc : ∀ m ∈ sessQ.output.buf.take [10].length, m.t ≠ CloseMessage := by
    intro m hm
    have : m = textHi := by simpa [sessQ] using hm
    rw [this]; decide
  ⟨⟨rfl, by decide, by decide,
      match (writePump_fifo sessQ rfl (by decide)).1 [10, 20, 30] (by decide) with
      | ⟨r, h1, h2, h3⟩ => ⟨r, h1, h2.trans (by decide), h3.trans (by decide)⟩⟩,
   ⟨by decide, hnc,
      match (writePump_fifo sessQ rfl (by decide)).2 [10] 20 "broken pipe"
          [PumpEvent.recv 30 none] (by decide) hnc with
      | ⟨r, h1, h2, h3, h4⟩ =>
        ⟨r, h1, h2.trans (by decide), by rw [h3]; decide, h4.trans (by decide)⟩⟩⟩

/-- C9, as stated, fails under a configuration whose `PingPeriod` is not
positive: for the open session `sessNoTicker` (queue Text, Close, Text and
`PingPeriod` 0) `writePump` panics in `time.NewTicker` before its loop, so no
frame is written although every write would succeed and no tick occurs. -/
theorem writePump_nonpositive_period_counterexample :
    sessNoTicker.isOpen = true ∧
    sessNoTicker.output.buf.map (fun m => m.t) = [TextMessage, CloseMessage, TextMessage] ∧
    sessNoTicker.manager.Config.PingPeriod = 0 ∧
    sessNoTicker.writePump ([10, 20, 30].map (fun t => PumpEvent.recv t none)) =
      Except.error "non-positive interval for NewTicker" ∧
    ¬ ∃ r : Effect,
        sessNoTicker.writePump ([10, 20, 30].map (fun t => PumpEvent.recv t none)) =
          Except.ok r ∧
        r.session.conn.written =
          sessNoTicker.conn.written ++ frames (uptoFirstClose sessNoTicker.output.buf) := by
  refine ⟨rfl, by decide, by decide, rfl, ?_⟩
  rintro ⟨r, h, _⟩
  have hpanic : sessNoTicker.writePump ([10, 20, 30].map (fun t => PumpEvent.recv t none)) =
      Except.error "non-positive interval for NewTicker" := rfl
  rw [hpanic] at h
  exact Except.noConfusion h

/-! ## Session: the inbound pump -/

/-- C10: the pong handler installed by `readPump` sets the read deadline to
the value computed when the pump started, `t0 + PongWait`, whatever the time
`t` at which the pong arrives, and then invokes the pong callback; with
`PongWait` of 60 s, a pump started at 0 and a pong at 30 s, the deadline
stays at 60 s and is not 90 s. -/
theorem pong_keeps_initial_deadline :
    (∀ (s : Session) (t0 t : Int),
      (s.readPump t0 [Inbound.pong t]).session.conn.readDeadline =
        some (t0 + s.manager.Config.PongWait) ∧
      (s.readPump t0 [Inbound.pong t]).calls = [Call.pong s.id]) ∧
    sessA.manager.Config.PongWait = 60 * second ∧
    (sessA.readPump 0 []).session.conn.readDeadline = some (60 * second) ∧
    (sessA.readPump 0 [Inbound.pong (30 * second)]).session.conn.readDeadline =
      some (60 * second) ∧
    (sessA.readPump 0 [Inbound.pong (30 * second)]).session.conn.readDeadline ≠
      some (30 * second + sessA.manager.Config.PongWait) := by
  refine ⟨?_, by decide, by decide, by decide, by decide⟩
  intro s t0 t
  simp [Session.readPump, Session.readLoop, Session.pongHandler]

/-! ## Hub: membership -/

theorem hub.has_iff (h : hub) (s : Nat) : h.has s = true ↔ s ∈ h.ids := by
  simp [hub.has, hub.ids]

theorem hub.has_false_iff (h : hub) (s : Nat) : h.has s = false ↔ s ∉ h.ids := by
  rw [← hub.has_iff]; simp

theorem length_filter_ne (l : List Session) (s : Nat)
    (hnd : (l.map (fun q => q.id)).Nodup) (hmem : s ∈ l.map (fun q => q.id)) :
    (l.filter (fun q => q.id != s)).length + 1 = l.length := by
  induction l with
  | nil => simp at hmem
  | cons a l ih =>
    rw [List.map_cons, List.nodup_cons] at hnd
    by_cases ha : a.id = s
    · have hall : ∀ q ∈ l, (q.id != s) = true := by
        intro q hq
        have : q.id ≠ s := by
          intro hqs
          exact hnd.1 (by rw [ha, ← hqs]; exact List.mem_map_of_mem _ hq)
        simpa using this
      have hfil : l.filter (fun q => q.id != s) = l := List.filter_eq_self.mpr hall
      simp [List.filter_cons, ha, hfil]
    · have hmem2 : s ∈ l.map (fun q => q.id) := by
        rw [List.map_cons, List.mem_cons] at hmem
        rcases hmem with h | h
        · exact absurd h.symm ha
        · exact h
      have := ih hnd.2 hmem2
      simp [List.filter_cons, ha]
      omega

theorem LoopState.step_running (st : LoopState) (ev : Event) (hne : ev.isExit = false) :
    (st.step ev).running = st.running := by
  cases ev with
  | register s => simp only [LoopState.step]; split <;> rfl
  | unregister s => simp only [LoopState.step]; split <;> rfl
  | broadcast msg => rfl
  | exit msg => simp [Event.isExit] at hne

theorem LoopState.step_ids_nodup (st : LoopState) (ev : Event) (hnd : st.h.ids.Nodup)
    (hfresh : st.reregisters ev = false) : (st.step ev).h.ids.Nodup := by
  cases ev with
  | register s =>
    have hf : st.h.has s.id = false := hfresh
    have hnot := (hub.has_false_iff st.h s.id).1 hf
    have hstep : (st.step (Event.register s)).h.sessions = st.h.sessions ++ [s] := by
      simp [LoopState.step, hf]
    unfold hub.ids at hnot hnd ⊢
    rw [hstep, List.map_append, List.map_cons, List.map_nil, List.nodup_append]
    refine ⟨hnd, List.nodup_singleton _, ?_⟩
    intro a ha hb
    rw [List.mem_singleton] at hb
    exact hnot (hb ▸ ha)
  | unregister s =>
    simp only [LoopState.step]
    split
    · exact hnd.sublist (List.Sublist.map _ (List.filter_sublist _))
    · exact hnd
  | broadcast msg =>
    have : (st.step (Event.broadcast msg)).h.ids = st.h.ids := by
      simp [LoopState.step, hub.ids, Function.comp_def, Session.writeMessage_id]
    rw [this]; exact hnd
  | exit msg => simp [LoopState.step, hub.ids]

theorem LoopState.step_len (st : LoopState) (ev : Event) (hnd : st.h.ids.Nodup)
    (hne : ev.isExit = false) (hfresh : st.reregisters ev = false) :
    (st.step ev).h.len + (if st.finds ev then 1 else 0) =
      st.h.len + registers [ev] := by
  cases ev with
  | register s =>
    have hf : st.h.has s.id = false := hfresh
    simp [LoopState.step, hf, hub.len, registers, LoopState.finds]
  | unregister s =>
    cases hh : st.h.has s with
    | true =>
      have hmem := (hub.has_iff st.h s).1 hh
      have := length_filter_ne st.h.sessions s hnd hmem
      simp [LoopState.step, hh, hub.len, registers, LoopState.finds]
      omega
    | false => simp [LoopState.step, hh, hub.len, registers, LoopState.finds]
  | broadcast msg => simp [LoopState.step, hub.len, registers, LoopState.finds]
  | exit msg => simp [Event.isExit] at hne

theorem registers_cons (ev : Event) (evs : List Event) :
    registers (ev :: evs) = registers [ev] + registers evs := by
  cases ev with
  | register s => simp [registers]; omega
  | unregister s => simp [registers]
  | broadcast msg => simp [registers]
  | exit msg => simp [registers]

theorem LoopState.run_len (evs : List Event) :
    ∀ st : LoopState, st.running = true → st.h.ids.Nodup → noExit evs = true →
      st.freshRegisters evs = true →
      (st.run evs).h.len + st.foundUnregisters evs = st.h.len + registers evs := by
  induction evs with
  | nil => intro st _ _ _ _; simp [LoopState.run, LoopState.foundUnregisters, registers]
  | cons ev rest ih =>
    intro st hrun hnd hno hfresh
    have hne : ev.isExit = false := by
      simp [noExit] at hno; simpa using hno.1
    have hno2 : noExit rest = true := by
      simp [noExit] at hno ⊢; exact hno.2
    have hr : (st.step ev).running = true := by
      rw [LoopState.step_running st ev hne]; exact hrun
    simp only [LoopState.freshRegisters, hr, if_true, Bool.and_eq_true,
      Bool.not_eq_true'] at hfresh
    have h1 := LoopState.step_len st ev hnd hne hfresh.1
    have h2 := ih (st.step ev) hr (LoopState.step_ids_nodup st ev hnd hfresh.1) hno2 hfresh.2
    rw [registers_cons]
    simp only [LoopState.run, LoopState.foundUnregisters, hr, if_true]
    omega

theorem LoopState.run_exit (evs : List Event) :
    ∀ st : LoopState, st.running = true → hasExit evs = true →
      (st.run evs).h.len = 0 ∧ (st.run evs).h.closed = true ∧ (st.run evs).running = false := by
  induction evs with
  | nil => intro st _ h; simp [hasExit] at h
  | cons ev rest ih =>
    intro st hrun h
    cases hex : ev.isExit with
    | true =>
      cases ev with
      | exit msg => simp [LoopState.run, LoopState.step, hub.len, hub.closed]
      | register s => simp [Event.isExit] at hex
      | unregister s => simp [Event.isExit] at hex
      | broadcast msg => simp [Event.isExit] at hex
    | false =>
      have h2 : hasExit rest = true := by simpa [hasExit, hex] using h
      have hr : (st.step ev).running = true := by
        rw [LoopState.step_running st ev hex]; exact hrun
      simp only [LoopState.run, hr, if_true]
      exact ih _ hr h2

/-- C4, as the code has it: for a hub with distinct members and a sequence of
events without shutdown in which no session is registered while a member, the
count after the run plus the number of unregister events that found their
session equals the count before plus the number of register events (so from
the empty hub the count is registers minus found unregisters); an unregister
of an absent session leaves the hub as it was; and for any sequence holding
a shutdown, the loop has stopped with count 0 and the hub closed, whatever
the membership was and whatever events come after the shutdown. -/
theorem hub_len_accounting (h : hub) (evs : List Event) :
    (h.ids.Nodup → noExit evs = true →
      LoopState.freshRegisters { h := h } evs = true →
      (h.run evs).h.len + LoopState.foundUnregisters { h := h } evs =
        h.len + registers evs) ∧
    (∀ s : Nat, h.has s = false →
      (h.run [Event.unregister s]).h.sessions = h.sessions ∧
      (h.run [Event.unregister s]).h.len = h.len) ∧
    (hasExit evs = true →
      (h.run evs).h.len = 0 ∧ (h.run evs).h.closed = true ∧ (h.run evs).running = false) := by
  refine ⟨?_, ?_, ?_⟩
  · intro hnd hno hfresh
    exact LoopState.run_len evs { h := h } rfl hnd hno hfresh
  · intro s hs
    simp [hub.run, LoopState.run, LoopState.step, hs, hub.len]
  · intro hex
    exact LoopState.run_exit evs { h := h } rfl hex

theorem hub_len_accounting_witness :
    (newHub.ids.Nodup ∧ noExit membershipEvents = true ∧
      LoopState.freshRegisters { h := newHub } membershipEvents = true ∧
      registers membershipEvents = 2 ∧
      LoopState.foundUnregisters { h := newHub } membershipEvents = 1 ∧
      (newHub.run membershipEvents).h.len + 1 = 0 + 2) ∧
    (hubAB.has 7 = false ∧ (hubAB.run [Event.unregister 7]).h.len = 2) ∧
    (hasExit registerThenExit = true ∧ (newHub.run registerThenExit).h.len = 0 ∧
      (newHub.run registerThenExit).h.closed = true) :=
  ⟨⟨List.nodup_nil, by decide, by decide, by decide, by decide,
      (hub_len_accounting newHub membershipEvents).1 List.nodup_nil (by decide) (by decide)⟩,
   ⟨by decide, ((hub_len_accounting hubAB []).2.1 7 (by decide)).2⟩,
   ⟨by decide, ((hub_len_accounting newHub registerThenExit).2.2 (by decide)).1,
      ((hub_len_accounting newHub registerThenExit).2.2 (by decide)).2.1⟩⟩

/-- C4, as stated, fails on a sequence with a shutdown: after one fresh
registration followed by a shutdown the count is 0, while the number of
register events minus the number of unregister events that found their
session is 1. -/
theorem hub_len_after_exit_counterexample :
    LoopState.freshRegisters { h := newHub } registerThenExit = true ∧
    registers registerThenExit = 1 ∧
    LoopState.foundUnregisters { h := newHub } registerThenExit = 0 ∧
    (newHub.run registerThenExit).h.len = 0 ∧
    (newHub.run registerThenExit).h.len ≠
      registers registerThenExit -
        LoopState.foundUnregisters { h := newHub } registerThenExit := by
  decide

/-! ## Hub: broadcast and shutdown -/

/-- C1: the broadcast case of `hub.run` never consults the filter of the
envelope: every member receives `writeMessage(msg)`. With `sessA` and `sessB`
registered, the envelope built by `BroadcastOthers(hi, sessA)` carries a
filter that is false at `sessA`, and the broadcast step still enqueues it on
the queue of `sessA`. -/
theorem broadcast_ignores_filter :
    (∀ (st : LoopState) (msg : envelope),
      (st.step (Event.broadcast msg)).h.sessions =
        st.h.sessions.map (fun s => (s.writeMessage msg).session)) ∧
    (Manager.BroadcastOthers hubAB hi sessA).err = none ∧
    (Manager.BroadcastOthers hubAB hi sessA).sent = [Submit.broadcast othersEnv] ∧
    othersEnv.filter.map (fun f => f sessA.id) = some false ∧
    (hubAB.run [Event.broadcast othersEnv]).h.sessions.map
        (fun s => (s.id, s.output.buf.map (fun m => (m.t, m.msg)))) =
      [(1, [(TextMessage, hi)]), (2, [(TextMessage, hi)])] := by
  refine ⟨?_, rfl, rfl, by decide, by decide⟩
  intro st msg
  simp [LoopState.step, Function.comp_def]

/-- C6: the shutdown case of `hub.run` leaves the open flag and the
connection of every session as they were: `writeMessage` and `Close` only
enqueue. With the open sessions `sessA` and `sessB` registered, after the
shutdown both are removed from the hub, each holds two Close envelopes in its
queue, `IsClosed()` is false for each and neither connection is closed. -/
theorem exit_leaves_sessions_open :
    (∀ (s : Session) (msg : envelope),
      (hub.exitOne s msg).session.isOpen = s.isOpen ∧
      (hub.exitOne s msg).session.conn = s.conn) ∧
    hubAB.sessions.map (fun s => s.IsClosed) = [false, false] ∧
    (hubAB.run [Event.exit closeEnv]).h.len = 0 ∧
    (hubAB.run [Event.exit closeEnv]).released.map
        (fun s => (s.id, s.IsClosed, s.conn.closed, s.output.buf.map (fun m => m.t))) =
      [(1, false, false, [CloseMessage, CloseMessage]),
       (2, false, false, [CloseMessage, CloseMessage])] := by
  refine ⟨?_, by decide, by decide, by decide⟩
  intro s msg
  have hk := Session.Close_keeps (s.writeMessage msg).session
  exact ⟨hk.1.trans (Session.writeMessage_isOpen s msg),
    hk.2.trans (Session.writeMessage_conn s msg)⟩

/-! ## Manager -/

/-- C5: on a closed hub, `Broadcast`, `BroadcastFilter`, `BroadcastOthers`,
`Close` and `HandleRequestWithKeys` each return an error and send nothing to
the hub; on an open hub `Broadcast` and `Close` return nil. -/
theorem closed_hub_rejects (h : hub) :
    (h.closed = true →
      (∀ msg, (Manager.Broadcast h msg).err ≠ none ∧ (Manager.Broadcast h msg).sent = []) ∧
      (∀ msg fn, (Manager.BroadcastFilter h msg fn).err ≠ none ∧
        (Manager.BroadcastFilter h msg fn).sent = []) ∧
      (∀ msg s, (Manager.BroadcastOthers h msg s).err ≠ none ∧
        (Manager.BroadcastOthers h msg s).sent = []) ∧
      ((Manager.Close h).err ≠ none ∧ (Manager.Close h).sent = []) ∧
      (∀ (m : Manager) upgrade keys addr now inbound,
        (m.HandleRequestWithKeys h upgrade keys addr now inbound).err ≠ none ∧
        (m.HandleRequestWithKeys h upgrade keys addr now inbound).sent = [] ∧
        (m.HandleRequestWithKeys h upgrade keys addr now inbound).calls = [])) ∧
    (h.closed = false →
      (∀ msg, (Manager.Broadcast h msg).err = none) ∧ (Manager.Close h).err = none) := by
  constructor
  · intro hc
    simp [Manager.Broadcast, Manager.BroadcastFilter, Manager.BroadcastOthers, Manager.Close,
      Manager.HandleRequestWithKeys, hc]
  · intro hc
    simp [Manager.Broadcast, Manager.Close, hc]

theorem closed_hub_rejects_witness :
    (hubClosed.closed = true ∧
      (Manager.Broadcast hubClosed hi).err ≠ none ∧
      (Manager.BroadcastOthers hubClosed hi sessA).sent = [] ∧
      (Manager.Close hubClosed).err ≠ none ∧
      (New.HandleRequestWithKeys hubClosed (Except.ok {}) none 3 0 []).err ≠ none) ∧
    (newHub.closed = false ∧ (Manager.Broadcast newHub hi).err = none ∧
      (Manager.Close newHub).err = none) :=
  ⟨⟨by decide,
      ((closed_hub_rejects hubClosed).1 (by decide)).1 hi |>.1,
      (((closed_hub_rejects hubClosed).1 (by decide)).2.2.1 hi sessA).2,
      ((closed_hub_rejects hubClosed).1 (by decide)).2.2.2.1.1,
      (((closed_hub_rejects hubClosed).1 (by decide)).2.2.2.2 New (Except.ok {}) none 3 0 []).1⟩,
   ⟨by decide, ((closed_hub_rejects newHub).2 (by decide)).1 hi,
      ((closed_hub_rejects newHub).2 (by decide)).2⟩⟩

end wsocket
